import Mathlib

/-!
Verification of the `s3cache` adapter (`s3cache.go`): a three-method cache
(`Get`, `Set`, `Delete`) storing entries in Amazon S3.  The external storage
client (`s3util`) and the byte-level helpers from the Go standard library
(`crypto/md5`, `encoding/hex`, `strings.HasSuffix`, `ioutil.ReadAll`) are
embedded below; the S3 network backend is modelled by outcome oracles and,
for round-trip reasoning, by an ideal key-to-bytes store.
-/

/-- Model of `s3.Keys` from `github.com/sqs/s3`: an AWS access/secret key pair. -/
structure Keys where
  AccessKey : String
  SecretKey : String
deriving DecidableEq, Repr

/-- Model of `s3util.Config`: the credential pair plus a service descriptor. -/
structure Config where
  Keys : Keys
  Service : String
deriving DecidableEq, Repr

/-- `Cache` from `s3cache.go`: the S3 configuration and the bucket URL. -/
structure Cache where
  Config : Config
  BucketURL : String
deriving DecidableEq, Repr

/-! ### `crypto/md5` and `encoding/hex`, over `Nat` bytes (values `< 256`). -/

/-- UTF-8 encoding of one character (Go strings are UTF-8 byte sequences;
`io.WriteString h key` feeds these bytes to the digest). -/
def utf8Bytes (c : Char) : List Nat :=
  let n := c.toNat
  if n < 128 then [n]
  else if n < 2048 then [192 + n / 64, 128 + n % 64]
  else if n < 65536 then [224 + n / 4096, 128 + (n / 64) % 64, 128 + n % 64]
  else [240 + n / 262144, 128 + (n / 4096) % 64, 128 + (n / 64) % 64, 128 + n % 64]

/-- The byte sequence of a Go string (UTF-8). -/
def strBytes (s : String) : List Nat :=
  s.data.flatMap utf8Bytes

/-- Rotate a 32-bit word left by `n` bits. -/
def rotl32 (x n : Nat) : Nat :=
  ((x <<< n) % 4294967296) ||| (x >>> (32 - n))

/-- The 64 MD5 sine-derived constants (RFC 1321). -/
def md5K : List Nat :=
  [0xd76aa478, 0xe8c7b756, 0x242070db, 0xc1bdceee,
   0xf57c0faf, 0x4787c62a, 0xa8304613, 0xfd469501,
   0x698098d8, 0x8b44f7af, 0xffff5bb1, 0x895cd7be,
   0x6b901122, 0xfd987193, 0xa679438e, 0x49b40821,
   0xf61e2562, 0xc040b340, 0x265e5a51, 0xe9b6c7aa,
   0xd62f105d, 0x02441453, 0xd8a1e681, 0xe7d3fbc8,
   0x21e1cde6, 0xc33707d6, 0xf4d50d87, 0x455a14ed,
   0xa9e3e905, 0xfcefa3f8, 0x676f02d9, 0x8d2a4c8a,
   0xfffa3942, 0x8771f681, 0x6d9d6122, 0xfde5380c,
   0xa4beea44, 0x4bdecfa9, 0xf6bb4b60, 0xbebfbc70,
   0x289b7ec6, 0xeaa127fa, 0xd4ef3085, 0x04881d05,
   0xd9d4d039, 0xe6db99e5, 0x1fa27cf8, 0xc4ac5665,
   0xf4292244, 0x432aff97, 0xab9423a7, 0xfc93a039,
   0x655b59c3, 0x8f0ccc92, 0xffeff47d, 0x85845dd1,
   0x6fa87e4f, 0xfe2ce6e0, 0xa3014314, 0x4e0811a1,
   0xf7537e82, 0xbd3af235, 0x2ad7d2bb, 0xeb86d391]

/-- The 64 MD5 per-round left-rotation amounts (RFC 1321). -/
def md5S : List Nat :=
  [7, 12, 17, 22, 7, 12, 17, 22, 7, 12, 17, 22, 7, 12, 17, 22,
   5, 9, 14, 20, 5, 9, 14, 20, 5, 9, 14, 20, 5, 9, 14, 20,
   4, 11, 16, 23, 4, 11, 16, 23, 4, 11, 16, 23, 4, 11, 16, 23,
   6, 10, 15, 21, 6, 10, 15, 21, 6, 10, 15, 21, 6, 10, 15, 21]

/-- One MD5 operation: round `i` of 64 on state `(a, b, c, d)` with message
words `m`. -/
def md5Step (m : List Nat) (st : Nat × Nat × Nat × Nat) (i : Nat) :
    Nat × Nat × Nat × Nat :=
  let a := st.1
  let b := st.2.1
  let c := st.2.2.1
  let d := st.2.2.2
  let fg : Nat × Nat :=
    if i < 16 then ((b &&& c) ||| ((b ^^^ 4294967295) &&& d), i)
    else if i < 32 then ((d &&& b) ||| ((d ^^^ 4294967295) &&& c), (5 * i + 1) % 16)
    else if i < 48 then (b ^^^ c ^^^ d, (3 * i + 5) % 16)
    else (c ^^^ (b ||| (d ^^^ 4294967295)), (7 * i) % 16)
  let f := (fg.1 + a + md5K.getD i 0 + m.getD fg.2 0) % 4294967296
  (d, (b + rotl32 f (md5S.getD i 0)) % 4294967296, b, c)

/-- Process one 512-bit block (given as 16 little-endian 32-bit words). -/
def md5Block (st : Nat × Nat × Nat × Nat) (m : List Nat) :
    Nat × Nat × Nat × Nat :=
  let r := (List.range 64).foldl (md5Step m) st
  ((st.1 + r.1) % 4294967296, (st.2.1 + r.2.1) % 4294967296,
   (st.2.2.1 + r.2.2.1) % 4294967296, (st.2.2.2 + r.2.2.2) % 4294967296)

/-- MD5 padding: append `0x80`, zero bytes to 56 mod 64, then the 64-bit
little-endian bit length. -/
def md5Pad (msg : List Nat) : List Nat :=
  let len := msg.length
  let zeros := (119 - len % 64) % 64
  let bits := (len * 8) % 18446744073709551616
  msg ++ [128] ++ List.replicate zeros 0 ++
    (List.range 8).map (fun i => (bits >>> (8 * i)) % 256)

/-- Split a byte list into 64-byte blocks (structural recursion on a fuel
bound so the kernel can evaluate it; `fuel ≥ length` always suffices). -/
def toBlocksAux : Nat → List Nat → List (List Nat)
  | 0, _ => []
  | fuel + 1, l => if l = [] then [] else l.take 64 :: toBlocksAux fuel (l.drop 64)

/-- Split a byte list into 64-byte blocks. -/
def toBlocks (l : List Nat) : List (List Nat) :=
  toBlocksAux l.length l

/-- The 16 little-endian 32-bit words of a 64-byte block. -/
def blockWords (b : List Nat) : List Nat :=
  (List.range 16).map (fun j =>
    b.getD (4 * j) 0 + 256 * b.getD (4 * j + 1) 0 +
    65536 * b.getD (4 * j + 2) 0 + 16777216 * b.getD (4 * j + 3) 0)

/-- The four little-endian bytes of a 32-bit word. -/
def wordBytesLE (w : Nat) : List Nat :=
  [w % 256, (w >>> 8) % 256, (w >>> 16) % 256, (w >>> 24) % 256]

/-- `crypto/md5`: the 16-byte MD5 digest of a byte sequence
(`md5.New` / write / `Sum(nil)`). -/
def md5 (msg : List Nat) : List Nat :=
  let st := (toBlocks (md5Pad msg)).foldl
    (fun st blk => md5Block st (blockWords blk))
    (0x67452301, 0xefcdab89, 0x98badcfe, 0x10325476)
  wordBytesLE st.1 ++ wordBytesLE st.2.1 ++ wordBytesLE st.2.2.1 ++
    wordBytesLE st.2.2.2

/-- The lowercase hex digit characters used by `encoding/hex`
(`hextable = "0123456789abcdef"`). -/
def hexTable : List Char :=
  "0123456789abcdef".data

/-- `hex.EncodeToString`: two lowercase hex characters per byte, high nibble
first. -/
def hexEncodeToString (bs : List Nat) : String :=
  ⟨bs.flatMap (fun b => [hexTable.getD (b / 16) '0', hexTable.getD (b % 16) '0'])⟩

/-- `cacheKeyToObjectKey` from `s3cache.go`: the lowercase-hex MD5 digest of
the key. -/
def cacheKeyToObjectKey (key : String) : String :=
  hexEncodeToString (md5 (strBytes key))

/-- `strings.HasSuffix` from the Go standard library. -/
def hasSuffix (s suffix : String) : Bool :=
  List.isSuffixOf suffix.data s.data

/-- `Cache.url` from `s3cache.go`: the bucket URL joined to the object key
with exactly one `/`. -/
def Cache.url (c : Cache) (key : String) : String :=
  let k := cacheKeyToObjectKey key
  if hasSuffix c.BucketURL "/" then c.BucketURL ++ k
  else c.BucketURL ++ "/" ++ k

/-! ### Operational model of the storage client and the three cache methods.

`s3util.Open`, `s3util.Create` and `s3util.Delete` perform network I/O; their
behaviour at a given URL is modelled by outcome oracles.  A successful open
yields an `io.Reader` modelled as the list of events `ioutil.ReadAll`
observes; handle lifecycle is recorded in a trace. -/

/-- One event produced by a reader: a data chunk, end of stream, or a read
error. -/
inductive ReadEvent where
  | chunk (bs : List Nat)
  | eof
  | fail
deriving DecidableEq, Repr

/-- `ioutil.ReadAll`: accumulate chunks until end of stream (success) or a
read error; on error the bytes read so far are still returned. -/
def readAll : List ReadEvent → List Nat × Bool
  | [] => ([], true)
  | ReadEvent.chunk bs :: rest =>
      let r := readAll rest
      (bs ++ r.1, r.2)
  | ReadEvent.eof :: _ => ([], true)
  | ReadEvent.fail :: _ => ([], false)

/-- The complete content of a reader: `some` of all bytes up to end of
stream when no read error occurs first, `none` otherwise. -/
def completeContent : List ReadEvent → Option (List Nat)
  | [] => some []
  | ReadEvent.chunk bs :: rest => (completeContent rest).map (bs ++ ·)
  | ReadEvent.eof :: _ => some []
  | ReadEvent.fail :: _ => none

/-- Outcome of `s3util.Open` at a URL: an error, or a reader. -/
inductive OpenOutcome where
  | err
  | ok (events : List ReadEvent)
deriving DecidableEq, Repr

/-- Outcome of `s3util.Create` at a URL: an error, or a writer whose
subsequent `Write` may itself fail (the write error is reported to the
caller of `Write` only). -/
inductive CreateOutcome where
  | err
  | ok (writeFails : Bool)
deriving DecidableEq, Repr

/-- Outcome of `s3util.Delete` at a URL: an error, or a response handle. -/
inductive DeleteOutcome where
  | err
  | ok
deriving DecidableEq, Repr

/-- Handle lifecycle events recorded by an operation. -/
inductive HEvent where
  | opened
  | closed
deriving DecidableEq, Repr

/-- What a call to `Cache.Get` produces: the byte/bool return pair, the
receiver after the call, an error surfaced to the caller (the Go method can
surface none), and the handle trace. -/
structure GetOut where
  resp : List Nat
  ok : Bool
  cache : Cache
  raised : Option Unit
  handles : List HEvent
deriving DecidableEq, Repr

/-- `Cache.Get` from `s3cache.go`, run against open-outcome oracle `opn`:
open `c.url key`; on error return `([], false)`; otherwise `defer rdr.Close()`,
read all, and return `(resp, err == nil)`. -/
def Cache.Get (c : Cache) (opn : String → OpenOutcome) (key : String) : GetOut :=
  match opn (c.url key) with
  | OpenOutcome.err =>
      { resp := [], ok := false, cache := c, raised := none, handles := [] }
  | OpenOutcome.ok evs =>
      let r := readAll evs
      { resp := r.1, ok := r.2, cache := c, raised := none,
        handles := [HEvent.opened, HEvent.closed] }

/-- What a call to `Cache.Set` or `Cache.Delete` produces: the receiver after
the call, an error surfaced to the caller (the Go methods return nothing and
can surface none), and the handle trace. -/
structure UnitOut where
  cache : Cache
  raised : Option Unit
  handles : List HEvent
  written : Option (List Nat)
deriving DecidableEq, Repr

/-- `Cache.Set` from `s3cache.go`, run against create-outcome oracle
`create`: create `c.url key`; on error return; otherwise `w.Write(resp)`
(its error is discarded) and `defer w.Close()`. -/
def Cache.Set (c : Cache) (create : String → CreateOutcome) (key : String)
    (resp : List Nat) : UnitOut :=
  match create (c.url key) with
  | CreateOutcome.err =>
      { cache := c, raised := none, handles := [], written := none }
  | CreateOutcome.ok _writeFails =>
      { cache := c, raised := none, handles := [HEvent.opened, HEvent.closed],
        written := some resp }

/-- `Cache.Delete` from `s3cache.go`, run against delete-outcome oracle
`del`: delete `c.url key`; on error return; otherwise `defer rdr.Close()`. -/
def Cache.Delete (c : Cache) (del : String → DeleteOutcome) (key : String) :
    UnitOut :=
  match del (c.url key) with
  | DeleteOutcome.err =>
      { cache := c, raised := none, handles := [], written := none }
  | DeleteOutcome.ok =>
      { cache := c, raised := none, handles := [HEvent.opened, HEvent.closed],
        written := none }

/-! ### The ideal backend: a key-to-bytes map on which all operations
succeed. -/

/-- A storage backend state: a map from object URL to stored bytes. -/
def Store : Type := String → Option (List Nat)

/-- `s3util.Open` against an ideal backend: succeed exactly when the URL is
mapped, yielding a reader that delivers the stored bytes and then ends. -/
def Store.openIdeal (s : Store) (loc : String) : OpenOutcome :=
  match s loc with
  | some p => OpenOutcome.ok [ReadEvent.chunk p, ReadEvent.eof]
  | none => OpenOutcome.err

/-- The effect of `Cache.Set` on an ideal backend where `s3util.Create`
succeeds and the written bytes are stored at `c.url key` on close. -/
def Cache.SetIdeal (c : Cache) (s : Store) (key : String) (resp : List Nat) :
    Store :=
  fun loc => if loc = c.url key then some resp else s loc

/-- A handle trace is balanced: every handle opened is matched by a close. -/
def closesAll (t : List HEvent) : Prop :=
  t.count HEvent.opened = t.count HEvent.closed

/-! ### Helper lemmas. -/

/-- A concrete adapter instance used for witnesses. -/
def c0 : Cache :=
  ⟨⟨⟨"AKIAEXAMPLE", "SECRETEXAMPLE"⟩, "s3.amazonaws.com"⟩,
    "https://s3-us-west-2.amazonaws.com/mybucket"⟩

theorem readAll_success_completeContent (evs : List ReadEvent)
    (h : (readAll evs).2 = true) : completeContent evs = some (readAll evs).1 := by
  induction evs with
  | nil => rfl
  | cons e rest ih =>
    cases e with
    | chunk bs =>
      simp only [readAll] at h ⊢
      simp only [completeContent, ih h]
      rfl
    | eof => rfl
    | fail => simp [readAll] at h

theorem wordBytesLE_mem_lt (w b : Nat) (h : b ∈ wordBytesLE w) : b < 256 := by
  simp only [wordBytesLE, List.mem_cons, List.not_mem_nil, or_false] at h
  rcases h with h | h | h | h <;> subst h <;> exact Nat.mod_lt _ (by omega)

theorem md5_length (msg : List Nat) : (md5 msg).length = 16 := by
  simp [md5, wordBytesLE]

theorem md5_mem_lt (msg : List Nat) : ∀ b ∈ md5 msg, b < 256 := by
  intro b hb
  simp only [md5, List.mem_append] at hb
  rcases hb with ((h | h) | h) | h <;> exact wordBytesLE_mem_lt _ _ h

theorem hexTable_getD_mem : ∀ n < 16, hexTable.contains (hexTable.getD n '0') = true := by
  decide

theorem hexEncodeToString_length (bs : List Nat) :
    (hexEncodeToString bs).length = 2 * bs.length := by
  show (bs.flatMap _).length = 2 * bs.length
  induction bs with
  | nil => rfl
  | cons b rest ih =>
    simp only [List.flatMap_cons, List.length_append, List.length_cons,
      List.length_nil, List.length_singleton, ih]
    omega

theorem hexEncodeToString_chars (bs : List Nat) (hlt : ∀ b ∈ bs, b < 256) :
    ∀ ch ∈ (hexEncodeToString bs).data, hexTable.contains ch = true := by
  intro ch hch
  show _ = true
  simp only [hexEncodeToString, List.mem_flatMap, List.mem_cons,
    List.not_mem_nil, or_false] at hch
  obtain ⟨b, hb, hc⟩ := hch
  have hb256 := hlt b hb
  rcases hc with hc | hc <;> subst hc
  · exact hexTable_getD_mem _ (by omega)
  · exact hexTable_getD_mem _ (Nat.mod_lt _ (by omega))

theorem cacheKeyToObjectKey_length (key : String) :
    (cacheKeyToObjectKey key).length = 32 := by
  rw [cacheKeyToObjectKey, hexEncodeToString_length, md5_length]

theorem cacheKeyToObjectKey_chars (key : String) :
    ∀ ch ∈ (cacheKeyToObjectKey key).data, hexTable.contains ch = true :=
  hexEncodeToString_chars _ (md5_mem_lt _)

theorem cacheKeyToObjectKey_no_slash (key : String) :
    ('/' : Char) ∉ (cacheKeyToObjectKey key).data := by
  intro hmem
  have h := cacheKeyToObjectKey_chars key _ hmem
  exact absurd h (by decide)

theorem hasSuffix_append_slash (b : String) : hasSuffix (b ++ "/") "/" = true := by
  rw [hasSuffix]
  have : (("/" : String)).data <:+ (b ++ "/").data := by
    rw [String.data_append]
    exact List.suffix_append _ _
  exact (List.isSuffixOf_iff_suffix).mpr this

theorem closesAll_nil : closesAll [] := rfl

theorem closesAll_pair : closesAll [HEvent.opened, HEvent.closed] := rfl

/-! ### The claims. -/

/-- Claim C1: for every key `k` and every payload `p` (including the empty
payload), against a storage backend modelled as a key-to-bytes map on which
all operations succeed, `Set(k, p)` followed by `Get(k)` returns `(p, true)`. -/
theorem roundtrip_set_then_get (c : Cache) (s : Store) (key : String)
    (p : List Nat) :
    (Cache.Get c (Store.openIdeal (Cache.SetIdeal c s key p)) key).resp = p ∧
    (Cache.Get c (Store.openIdeal (Cache.SetIdeal c s key p)) key).ok = true := by
  simp [Cache.Get, Store.openIdeal, Cache.SetIdeal, readAll]

/-- Claim C2 as stated fails on the code: with a reader that yields one byte
and then errors, `Get` returns the partially read non-empty payload together
with `found = false`, not an empty payload. -/
theorem get_read_error_payload_nonempty :
    (Cache.Get c0 (fun _ => OpenOutcome.ok [ReadEvent.chunk [1], ReadEvent.fail]) "k").resp = [1] ∧
    (Cache.Get c0 (fun _ => OpenOutcome.ok [ReadEvent.chunk [1], ReadEvent.fail]) "k").ok = false ∧
    (Cache.Get c0 (fun _ => OpenOutcome.ok [ReadEvent.chunk [1], ReadEvent.fail]) "k").resp ≠ [] := by
  have h1 : (Cache.Get c0 (fun _ => OpenOutcome.ok [ReadEvent.chunk [1], ReadEvent.fail]) "k").resp = [1] := rfl
  exact ⟨h1, rfl, by rw [h1]; simp⟩

/-- Claim C2 amended: if the open-for-read call succeeds but reading the
stream afterwards fails, `Get` returns `found = false` together with the
bytes read before the failure (not necessarily an empty payload). -/
theorem get_read_error_returns_partial (c : Cache) (opn : String → OpenOutcome)
    (key : String) (evs : List ReadEvent)
    (hopen : opn (c.url key) = OpenOutcome.ok evs)
    (hfail : (readAll evs).2 = false) :
    (Cache.Get c opn key).ok = false ∧
    (Cache.Get c opn key).resp = (readAll evs).1 := by
  simp [Cache.Get, hopen, hfail]

theorem get_read_error_returns_partial_witness :
    (fun _ : String => OpenOutcome.ok [ReadEvent.chunk [2, 3], ReadEvent.fail])
        (c0.url "k") = OpenOutcome.ok [ReadEvent.chunk [2, 3], ReadEvent.fail] ∧
    (readAll [ReadEvent.chunk [2, 3], ReadEvent.fail]).2 = false ∧
    ((Cache.Get c0 (fun _ => OpenOutcome.ok [ReadEvent.chunk [2, 3], ReadEvent.fail]) "k").ok = false ∧
      (Cache.Get c0 (fun _ => OpenOutcome.ok [ReadEvent.chunk [2, 3], ReadEvent.fail]) "k").resp =
        (readAll [ReadEvent.chunk [2, 3], ReadEvent.fail]).1) :=
  ⟨rfl, rfl, get_read_error_returns_partial c0 _ "k" _ rfl rfl⟩

/-- Claim C3: whenever `Get` returns `found = true`, the open succeeded and
the returned payload is the complete content of the opened object, read to
completion without error (`completeContent` is `none` whenever a read error
occurs, so no partial payload is ever returned as found). -/
theorem get_found_implies_complete (c : Cache) (opn : String → OpenOutcome)
    (key : String) (hok : (Cache.Get c opn key).ok = true) :
    ∃ evs, opn (c.url key) = OpenOutcome.ok evs ∧
      completeContent evs = some (Cache.Get c opn key).resp := by
  cases h : opn (c.url key) with
  | err => simp [Cache.Get, h] at hok
  | ok evs =>
    refine ⟨evs, rfl, ?_⟩
    have hok2 : (readAll evs).2 = true := by simpa [Cache.Get, h] using hok
    have hcc := readAll_success_completeContent evs hok2
    simpa [Cache.Get, h] using hcc

theorem get_found_implies_complete_witness :
    (Cache.Get c0 (fun _ => OpenOutcome.ok [ReadEvent.chunk [7], ReadEvent.eof]) "k").ok = true ∧
    ∃ evs, (fun _ : String => OpenOutcome.ok [ReadEvent.chunk [7], ReadEvent.eof])
        (c0.url "k") = OpenOutcome.ok evs ∧
      completeContent evs =
        some (Cache.Get c0 (fun _ => OpenOutcome.ok [ReadEvent.chunk [7], ReadEvent.eof]) "k").resp :=
  ⟨rfl, get_found_implies_complete c0
    (fun _ => OpenOutcome.ok [ReadEvent.chunk [7], ReadEvent.eof]) "k" rfl⟩

/-- Claim C4: if the open-for-read call fails for any reason, `Get` returns
an empty payload and `found = false`, surfacing no error to the caller. -/
theorem get_open_error_not_found (c : Cache) (opn : String → OpenOutcome)
    (key : String) (herr : opn (c.url key) = OpenOutcome.err) :
    (Cache.Get c opn key).resp = [] ∧ (Cache.Get c opn key).ok = false ∧
    (Cache.Get c opn key).raised = none := by
  simp [Cache.Get, herr]

theorem get_open_error_not_found_witness :
    (fun _ : String => OpenOutcome.err) (c0.url "k") = OpenOutcome.err ∧
    ((Cache.Get c0 (fun _ => OpenOutcome.err) "k").resp = [] ∧
      (Cache.Get c0 (fun _ => OpenOutcome.err) "k").ok = false ∧
      (Cache.Get c0 (fun _ => OpenOutcome.err) "k").raised = none) :=
  ⟨rfl, get_open_error_not_found c0 _ "k" rfl⟩

/-- Claim C5: every failure on the `Set` path and every failure on the
`Delete` path (including deleting a nonexistent key) leaves the caller with
no observable error: both operations return normally with nothing raised,
whatever the backend outcome. -/
theorem set_delete_never_raise (c : Cache) (create : String → CreateOutcome)
    (del : String → DeleteOutcome) (key : String) (resp : List Nat) :
    (Cache.Set c create key resp).raised = none ∧
    (Cache.Delete c del key).raised = none := by
  constructor
  · cases h : create (c.url key) <;> simp [Cache.Set, h]
  · cases h : del (c.url key) <;> simp [Cache.Delete, h]

/-- Claim C6: the key-to-location mapping is a pure, total, deterministic
function of the key: equal keys give equal locations, and the location is the
bucket URL followed by a separator and the 32-character lowercase-hex
rendering of the 16-byte (128-bit) MD5 digest of the key (the separator being
part of the bucket URL when it already ends in one). -/
theorem url_deterministic_fixed_hex (c : Cache) (k1 k2 : String) (h : k1 = k2) :
    Cache.url c k1 = Cache.url c k2 ∧
    (md5 (strBytes k1)).length = 16 ∧
    (cacheKeyToObjectKey k1).length = 32 ∧
    (∀ ch ∈ (cacheKeyToObjectKey k1).data, hexTable.contains ch = true) ∧
    (Cache.url c k1 = c.BucketURL ++ "/" ++ cacheKeyToObjectKey k1 ∨
      (hasSuffix c.BucketURL "/" = true ∧
        Cache.url c k1 = c.BucketURL ++ cacheKeyToObjectKey k1)) := by
  subst h
  refine ⟨rfl, md5_length _, cacheKeyToObjectKey_length _,
    cacheKeyToObjectKey_chars _, ?_⟩
  by_cases hs : hasSuffix c.BucketURL "/"
  · exact Or.inr ⟨hs, by simp [Cache.url, hs]⟩
  · exact Or.inl (by simp [Cache.url, hs])

theorem url_deterministic_fixed_hex_witness :
    ("k" : String) = "k" ∧
    (Cache.url c0 "k" = Cache.url c0 "k" ∧
      (md5 (strBytes "k")).length = 16 ∧
      (cacheKeyToObjectKey "k").length = 32 ∧
      (∀ ch ∈ (cacheKeyToObjectKey "k").data, hexTable.contains ch = true) ∧
      (Cache.url c0 "k" = c0.BucketURL ++ "/" ++ cacheKeyToObjectKey "k" ∨
        (hasSuffix c0.BucketURL "/" = true ∧
          Cache.url c0 "k" = c0.BucketURL ++ cacheKeyToObjectKey "k"))) :=
  ⟨rfl, url_deterministic_fixed_hex c0 "k" "k" rfl⟩

/-- Claim C7: a base location ending in `/` and the same base location
without the trailing separator produce identical storage locations, equal to
the base, exactly one `/`, and the hex digest, which itself contains no `/`
(so the separator at the junction is never doubled or missing). -/
theorem url_separator_normalization (cfg : Config) (b key : String)
    (h : hasSuffix b "/" = false) :
    Cache.url ⟨cfg, b ++ "/"⟩ key = Cache.url ⟨cfg, b⟩ key ∧
    Cache.url ⟨cfg, b⟩ key = b ++ "/" ++ cacheKeyToObjectKey key ∧
    ('/' : Char) ∉ (cacheKeyToObjectKey key).data := by
  have h2 : Cache.url ⟨cfg, b⟩ key = b ++ "/" ++ cacheKeyToObjectKey key := by
    simp [Cache.url, h]
  refine ⟨?_, h2, cacheKeyToObjectKey_no_slash key⟩
  rw [h2]
  simp [Cache.url, hasSuffix_append_slash b]

theorem url_separator_normalization_witness :
    hasSuffix "https://s3-us-west-2.amazonaws.com/mybucket" "/" = false ∧
    (Cache.url ⟨c0.Config, "https://s3-us-west-2.amazonaws.com/mybucket" ++ "/"⟩ "k" =
        Cache.url ⟨c0.Config, "https://s3-us-west-2.amazonaws.com/mybucket"⟩ "k" ∧
      Cache.url ⟨c0.Config, "https://s3-us-west-2.amazonaws.com/mybucket"⟩ "k" =
        "https://s3-us-west-2.amazonaws.com/mybucket" ++ "/" ++ cacheKeyToObjectKey "k" ∧
      ('/' : Char) ∉ (cacheKeyToObjectKey "k").data) :=
  ⟨by decide, url_separator_normalization c0.Config _ "k" (by decide)⟩

/-- Claim C8: none of the three operations mutates the adapter: each call
returns the receiver — `Config` (credential pair included) and `BucketURL` —
unchanged, whatever the backend outcome. -/
theorem ops_leave_cache_unchanged (c : Cache) (opn : String → OpenOutcome)
    (create : String → CreateOutcome) (del : String → DeleteOutcome)
    (key : String) (resp : List Nat) :
    (Cache.Get c opn key).cache = c ∧
    (Cache.Set c create key resp).cache = c ∧
    (Cache.Delete c del key).cache = c := by
  refine ⟨?_, ?_, ?_⟩
  · cases h : opn (c.url key) <;> simp [Cache.Get, h]
  · cases h : create (c.url key) <;> simp [Cache.Set, h]
  · cases h : del (c.url key) <;> simp [Cache.Delete, h]

/-- Claim C9: on every exit path of `Get`, `Set` and `Delete` — open failure
(no handle obtained), read or write error after a successful open, and normal
completion — every handle obtained from the storage client is closed. -/
theorem handles_closed_on_all_paths (c : Cache) (opn : String → OpenOutcome)
    (create : String → CreateOutcome) (del : String → DeleteOutcome)
    (key : String) (resp : List Nat) :
    closesAll (Cache.Get c opn key).handles ∧
    closesAll (Cache.Set c create key resp).handles ∧
    closesAll (Cache.Delete c del key).handles := by
  refine ⟨?_, ?_, ?_⟩
  · cases h : opn (c.url key) with
    | err => simpa [Cache.Get, h] using closesAll_nil
    | ok evs => simpa [Cache.Get, h] using closesAll_pair
  · cases h : create (c.url key) with
    | err => simpa [Cache.Set, h] using closesAll_nil
    | ok wf => simpa [Cache.Set, h] using closesAll_pair
  · cases h : del (c.url key) with
    | err => simpa [Cache.Delete, h] using closesAll_nil
    | ok => simpa [Cache.Delete, h] using closesAll_pair

/-- Claim C10: the derived storage location depends only on the key and the
`BucketURL` field: two adapters with equal `BucketURL` but arbitrary
credentials and service configuration map every key to the same location. -/
theorem url_ignores_config (c1 c2 : Cache) (key : String)
    (h : c1.BucketURL = c2.BucketURL) :
    Cache.url c1 key = Cache.url c2 key := by
  simp [Cache.url, h]

theorem url_ignores_config_witness :
    (Cache.mk ⟨⟨"AKIA1", "S1"⟩, "svc1"⟩ "https://x/b").BucketURL =
      (Cache.mk ⟨⟨"AKIA2", "S2"⟩, "svc2"⟩ "https://x/b").BucketURL ∧
    Cache.url (Cache.mk ⟨⟨"AKIA1", "S1"⟩, "svc1"⟩ "https://x/b") "k" =
      Cache.url (Cache.mk ⟨⟨"AKIA2", "S2"⟩, "svc2"⟩ "https://x/b") "k" :=
  ⟨rfl, url_ignores_config _ _ "k" rfl⟩
